import Mathlib

/-!
Verification development for the EODOptionTradier client-side view logic.

The repository consists of three JavaScript files:
* an IIFE attaching URL-query-string based handlers to the report table
  (clear-all, clear-sorts, column-sort clicks, filter-chip removal),
* a DOMContentLoaded script attaching form-field based handlers for the
  same interactions (the form is submitted instead of mutating the URL),
* `static/storage.js`, an IIFE that renders a two-series line chart.

We embed each handler as a pure function from the relevant page state
(URL query parameters as an association list, form fields as a list of
`FormField` records) to the new state together with the `Effect` the handler
ends with (`navigate`, `submit`, or `none` for an early return).
-/

/-- The observable effect a click handler ends with: assignment to
`window.location.href`, a `form.submit()` call, or nothing (early return). -/
inductive Effect where
  | none
  | navigate
  | submit
  deriving DecidableEq, Repr

/-- URL query parameters in order, as `URLSearchParams` stores them. -/
abbrev Params := List (String × String)

/-- A form input element: its `name`, current `value`, and whether it is
an `input[type="hidden"]`. -/
structure FormField where
  name : String
  value : String
  hidden : Bool
  deriving DecidableEq, Repr

/-- JS `k.startsWith(pre)`, modelled on the character lists of the two
strings so that it evaluates by kernel reduction. -/
def strStartsWith (k pre : String) : Bool :=
  List.isPrefixOf pre.data k.data

/-- `URLSearchParams.delete name`: removes every pair with that key. -/
def searchParamsDelete (ps : Params) (name : String) : Params :=
  ps.filter (fun kv => kv.1 ≠ name)

/-- `URLSearchParams.set name value`: replaces the value of the first pair
with that key and removes the remaining pairs with that key; appends the
pair at the end when no pair has the key. -/
def searchParamsSet (ps : Params) (name value : String) : Params :=
  match ps with
  | [] => [(name, value)]
  | kv :: rest =>
    if kv.1 = name then (name, value) :: searchParamsDelete rest name
    else kv :: searchParamsSet rest name value

/-- `URLSearchParams.get name`: the value of the first pair with that key. -/
def searchParamsGet (ps : Params) (name : String) : Option String :=
  (ps.find? (fun kv => kv.1 = name)).map (fun kv => kv.2)

/-- The successor of a column sort state, as computed by both sort-click
handlers: `current === "" ? "asc" : current === "asc" ? "desc" : ""`. -/
def nextSort (current : String) : String :=
  if current = "" then "asc" else if current = "asc" then "desc" else ""

/-- JS `attr || ""`: `getAttribute` returns `null` when absent, and both
`null` and `""` are falsy, so the expression yields the attribute's text or
`""`. -/
def attrOrEmpty (a : Option String) : String :=
  match a with
  | Option.none => ""
  | some s => s

/-- JS truthiness of a `getAttribute` result: `null` and `""` are falsy. -/
def jsTruthy (a : Option String) : Bool :=
  match a with
  | Option.none => false
  | some s => s ≠ ""

/-! ## URL-based handlers (first script, `part_000`) -/

/-- `clearAll` of the URL-based script: deletes every query parameter whose
key starts with `"f_"` or `"s_"` or equals `"limit"`, then navigates. -/
def clearAllUrl (ps : Params) : Params × Effect :=
  (ps.filter (fun kv =>
      ! (strStartsWith kv.1 "f_" || strStartsWith kv.1 "s_" || kv.1 == "limit")),
   Effect.navigate)

/-- `clearSorts` of the URL-based script: deletes every query parameter
whose key starts with `"s_"`, then navigates. -/
def clearSortsUrl (ps : Params) : Params × Effect :=
  (ps.filter (fun kv => ! strStartsWith kv.1 "s_"), Effect.navigate)

/-- The `th[data-col]` click handler of the URL-based script.
`onSortControl` is whether `e.target.closest("[data-action='sort']")` found
an element (otherwise the handler returns early); `col` is the `data-col`
attribute (present by the selector); `dataSort` is the `data-sort`
attribute (`null` when absent). The handler sets `s_<col>` to the successor
state and navigates. -/
def sortClickUrl (onSortControl : Bool) (col : String) (dataSort : Option String)
    (ps : Params) : Params × Effect :=
  if ¬ onSortControl then (ps, Effect.none)
  else
    (searchParamsSet ps ("s_" ++ col) (nextSort (attrOrEmpty dataSort)),
     Effect.navigate)

/-- JS string interpolation of a `getAttribute` result: `null` prints as
`"null"`. -/
def jsAttrStr (a : Option String) : String :=
  match a with
  | Option.none => "null"
  | some s => s

/-- The chips-container click handler of the URL-based script. `onX` is
whether `e.target.closest(".x")` found an element, `inChip` whether
`e.target.closest(".chip")` did (each failing lookup returns early);
`kind` and `col` are the chip's `data-kind` and `data-col` attributes.
When `kind` is `"filter"` the handler deletes `f_<col>`, when `"sort"` it
deletes `s_<col>`; it always navigates. -/
def chipClickUrl (onX inChip : Bool) (kind col : Option String)
    (ps : Params) : Params × Effect :=
  if ¬ onX then (ps, Effect.none)
  else if ¬ inChip then (ps, Effect.none)
  else
    let ps1 := if kind = some "filter"
      then searchParamsDelete ps ("f_" ++ jsAttrStr col) else ps
    let ps2 := if kind = some "sort"
      then searchParamsDelete ps1 ("s_" ++ jsAttrStr col) else ps1
    (ps2, Effect.navigate)

/-! ## Form-based handlers (second script, `part_001`) -/

/-- Set the `value` of the first field satisfying `p`; leave the rest (and a
list with no such field) unchanged. Models assigning `.value` to the result
of a `querySelector` when it is non-null. -/
def setFirstValue (p : FormField → Bool) (v : String) :
    List FormField → List FormField
  | [] => []
  | f :: rest =>
    if p f then { f with value := v } :: rest
    else f :: setFirstValue p v rest

/-- Matches `input[type="hidden"][name^="s_"]`. -/
def isHiddenSort (f : FormField) : Bool :=
  f.hidden && strStartsWith f.name "s_"

/-- The `clearSortsBtn` click handler of the form-based script: sets the
value of every `input[type="hidden"][name^="s_"]` to `""`, then submits. -/
def clearSortsForm (fields : List FormField) : List FormField × Effect :=
  (fields.map (fun f => if isHiddenSort f then { f with value := "" } else f),
   Effect.submit)

/-- The `clearBtn` click handler of the form-based script reads the value of
the form's `input[name="limit"]`, defaulting to `"100"` when the input is
absent. -/
def clearBtnLimit (fields : List FormField) : String :=
  match fields.find? (fun f => f.name == "limit") with
  | Option.none => "100"
  | some f => f.value

/-- The sort-click handler of the form-based script (listener on
`th[data-col] [data-action="sort"]`, so `col` is always present): computes
the successor of the `th`'s `data-sort` attribute, writes it into the `th`'s
hidden input named `s_<col>` when that input exists, then submits. The
hidden input is looked up among the form's fields. -/
def sortClickForm (col : String) (dataSort : Option String)
    (fields : List FormField) : List FormField × Effect :=
  let next := nextSort (attrOrEmpty dataSort)
  (setFirstValue (fun f => f.hidden && f.name == "s_" ++ col) next fields,
   Effect.submit)

/-- The chip-remove handler of the form-based script (listener on
`.chip .x`): returns early when the chip's `data-col` or `data-kind` is
null or empty; for kind `"filter"` it blanks the first `input[name="f_<col>"]`,
for kind `"sort"` the first `input[type="hidden"][name="s_<col>"]`; then
submits. -/
def chipClickForm (col kind : Option String)
    (fields : List FormField) : List FormField × Effect :=
  if ¬ (jsTruthy col ∧ jsTruthy kind) then (fields, Effect.none)
  else
    let c := attrOrEmpty col
    let fields1 :=
      if kind = some "filter" then
        setFirstValue (fun f => f.name == "f_" ++ c) "" fields
      else if kind = some "sort" then
        setFirstValue (fun f => f.hidden && f.name == "s_" ++ c) "" fields
      else fields
    (fields1, Effect.submit)

/-! ## Chart widget (`static/storage.js`) -/

/-- One entry of the `datasets` array passed to `new Chart`. The numeric
`data` array is kept abstract in its element type; `tension: 0.25` is the
exact rational `1/4`. -/
structure Dataset (α : Type) where
  label : String
  data : List α
  borderWidth : Nat
  pointRadius : Nat
  tension : Rat
  deriving Repr

/-- The `data` object of the chart configuration. -/
structure ChartData (α β : Type) where
  labels : List β
  datasets : List (Dataset α)
  deriving Repr

/-- The chart configuration handed to `new Chart` (the purely presentational
`options` object is not modelled). -/
structure ChartConfig (α β : Type) where
  type : String
  data : ChartData α β
  deriving Repr

/-- The `storage.js` IIFE: reads the three globals (each `undefined` global
defaults to `[]` via `||`), returns without rendering when the
`usageChart` canvas is absent or the labels array is empty, and otherwise
renders the line chart with the two datasets. `some cfg` is the
configuration of the rendered chart, `none` means no chart was rendered. -/
def storageInit {α β : Type} (labelsG : Option (List β))
    (rootG volG : Option (List α)) (canvasPresent : Bool) :
    Option (ChartConfig α β) :=
  let labels := labelsG.getD []
  let rootPct := rootG.getD []
  let volPct := volG.getD []
  if ¬ canvasPresent then Option.none
  else if labels.length = 0 then Option.none
  else some
    { type := "line"
      data :=
        { labels := labels
          datasets :=
            [{ label := "Root % Used", data := rootPct,
               borderWidth := 2, pointRadius := 3, tension := 1/4 },
             { label := "Volume % Used", data := volPct,
               borderWidth := 2, pointRadius := 3, tension := 1/4 }] } }

/-! ## The `clearBtn` navigation target, at the level of code points/bytes

The `clearBtn` handler builds a URL by string concatenation:
`window.location.pathname + '?limit=' + encodeURIComponent(limit) +
'&format=html'`. To reason about which query parameters the server
receives, we model the strings involved as lists of Unicode code points
(`strToCodes`) and give `encodeURIComponent` and the WHATWG
`application/x-www-form-urlencoded` query parsing on those lists. -/

/-- The code points of a string. -/
def strToCodes (s : String) : List Nat :=
  s.data.map Char.toNat

/-- The UTF-8 bytes of one code point. -/
def utf8Bytes (c : Nat) : List Nat :=
  if c < 128 then [c]
  else if c < 2048 then [192 + c / 64, 128 + c % 64]
  else if c < 65536 then [224 + c / 4096, 128 + (c / 64) % 64, 128 + c % 64]
  else [240 + c / 262144, 128 + (c / 4096) % 64, 128 + (c / 64) % 64,
        128 + c % 64]

/-- The characters `encodeURIComponent` leaves unescaped:
`A–Z a–z 0–9 - _ . ! ~ * ' ( )`. -/
def isUnreservedByte (b : Nat) : Bool :=
  (65 ≤ b && b ≤ 90) || (97 ≤ b && b ≤ 122) || (48 ≤ b && b ≤ 57) ||
  b == 45 || b == 95 || b == 46 || b == 33 || b == 126 || b == 42 ||
  b == 39 || b == 40 || b == 41

/-- Uppercase hexadecimal digit (as a code point). -/
def hexDigitCode (n : Nat) : Nat :=
  if n < 10 then 48 + n else 55 + n

/-- `%XX` escape of one byte: `%`, then two uppercase hex digits. -/
def percentEncodeByte (b : Nat) : List Nat :=
  [37, hexDigitCode (b / 16), hexDigitCode (b % 16)]

/-- `encodeURIComponent` on one code point: unreserved characters pass
through, everything else is the `%XX` escapes of its UTF-8 bytes. -/
def encodeCodePoint (c : Nat) : List Nat :=
  if isUnreservedByte c then [c]
  else ((utf8Bytes c).map percentEncodeByte).flatten

/-- `encodeURIComponent` on a whole string (as code points). -/
def encodeURIComponentC (s : List Nat) : List Nat :=
  (s.map encodeCodePoint).flatten

/-- The `clearBtn` click handler of the form-based script: navigates to
`pathname + '?limit=' + encodeURIComponent(limit) + '&format=html'` where
`limit` is read by `clearBtnLimit`. -/
def clearBtnForm (pathname : List Nat) (fields : List FormField) :
    List Nat × Effect :=
  (pathname ++ strToCodes "?limit="
     ++ encodeURIComponentC (strToCodes (clearBtnLimit fields))
     ++ strToCodes "&format=html",
   Effect.navigate)

/-- The part of the list before the first occurrence of `c`. -/
def takeUntilByte (c : Nat) : List Nat → List Nat
  | [] => []
  | a :: as => if a = c then [] else a :: takeUntilByte c as

/-- The part of the list after the first occurrence of `c` (empty when `c`
does not occur). -/
def dropThroughByte (c : Nat) : List Nat → List Nat
  | [] => []
  | a :: as => if a = c then as else dropThroughByte c as

/-- Split the list at every occurrence of `c`. -/
def splitOnByte (c : Nat) : List Nat → List (List Nat)
  | [] => [[]]
  | a :: as =>
    if a = c then [] :: splitOnByte c as
    else
      match splitOnByte c as with
      | [] => [[a]]
      | g :: gs => (a :: g) :: gs

/-- One `key=value` query component as a pair (`value` empty when there is
no `=`). -/
def pairOfComponent (l : List Nat) : List Nat × List Nat :=
  (takeUntilByte 61 l, dropThroughByte 61 l)

/-- The query parameters the server receives from a URL: the part after the
first `?`, split on `&` (empty components skipped), each component split at
its first `=`. -/
def queryPairsC (url : List Nat) : List (List Nat × List Nat) :=
  ((splitOnByte 38 (dropThroughByte 63 url)).filter
      (fun l => ¬ l.isEmpty)).map pairOfComponent

/-- A `Params` value as lists of code points, for comparison with parsed
query strings. -/
def paramsToCodes (ps : Params) : List (List Nat × List Nat) :=
  ps.map (fun kv => (strToCodes kv.1, strToCodes kv.2))

/-! ## Supporting lemmas -/

/-- After `set`, `get` of the same key returns the new value. -/
theorem searchParamsGet_set (ps : Params) (n v : String) :
    searchParamsGet (searchParamsSet ps n v) n = some v := by
  induction ps with
  | nil => simp [searchParamsSet, searchParamsGet]
  | cons kv rest ih =>
    by_cases h : kv.1 = n
    · simp [searchParamsSet, h, searchParamsGet]
    · simpa [searchParamsSet, h, searchParamsGet] using ih

/-- When some field matches `p` and `p` ignores the `value` component,
the first `p`-match after `setFirstValue p v` has value `v`. -/
theorem setFirstValue_find? (p : FormField → Bool) (v : String)
    (hp : ∀ f, p f = true → p { f with value := v } = true)
    (fields : List FormField) (h : fields.any p = true) :
    ((setFirstValue p v fields).find? p).map FormField.value = some v := by
  induction fields with
  | nil => simp at h
  | cons f rest ih =>
    by_cases hf : p f = true
    · simp [setFirstValue, hf, List.find?, hp f hf]
    · have hrest : rest.any p = true := by
        simp [List.any_cons, hf] at h
        simpa using h
      simpa [setFirstValue, hf, List.find?] using ih hrest

/-- `setFirstValue` either changes nothing (no field matches) or rewrites
exactly the value of the first matching field. -/
theorem setFirstValue_cases (p : FormField → Bool) (v : String)
    (fields : List FormField) :
    ((∀ g ∈ fields, p g = false) ∧ setFirstValue p v fields = fields) ∨
    ∃ l f r, fields = l ++ f :: r ∧ (∀ g ∈ l, p g = false) ∧ p f = true ∧
      setFirstValue p v fields = l ++ { f with value := v } :: r := by
  induction fields with
  | nil => exact Or.inl ⟨by simp, rfl⟩
  | cons f rest ih =>
    by_cases hf : p f = true
    · exact Or.inr ⟨[], f, rest, rfl, by simp, hf, by simp [setFirstValue, hf]⟩
    · rcases ih with ⟨hall, heq⟩ | ⟨l, f', r, hfe, hl, hpf, he⟩
      · refine Or.inl ⟨?_, by simp [setFirstValue, hf, heq]⟩
        intro g hg
        rcases List.mem_cons.1 hg with hg | hg
        · subst hg; simpa using hf
        · exact hall g hg
      · refine Or.inr ⟨f :: l, f', r, by simp [hfe], ?_, hpf,
          by simp [setFirstValue, hf, he]⟩
        intro g hg
        rcases List.mem_cons.1 hg with hg | hg
        · subst hg; simpa using hf
        · exact hl g hg

/-- Every value of `nextSort` lies in the three-state cycle. -/
theorem nextSort_mem (s : String) :
    nextSort s = "asc" ∨ nextSort s = "desc" ∨ nextSort s = "" := by
  unfold nextSort
  by_cases h1 : s = ""
  · simp [h1]
  · by_cases h2 : s = "asc" <;> simp [h1, h2]

/-- After at least one click the sort state lies in the cycle. -/
theorem nextSort_iterate_mem (s : String) (n : Nat) (h : 0 < n) :
    nextSort^[n] s = "asc" ∨ nextSort^[n] s = "desc" ∨ nextSort^[n] s = "" := by
  cases n with
  | zero => exact absurd h (by omega)
  | succ m =>
    rw [Function.iterate_succ_apply']
    exact nextSort_mem _

/-! ## Claim theorems -/

/-- C1: a sort click reads the column's `data-sort` attribute (defaulting
to `""` when absent) and writes its successor — `"" ↦ asc ↦ desc ↦ ""`,
any other value `↦ ""` — into the query string (URL script) or the hidden
form input (form script) under the key `s_<col>`. -/
theorem sortClick_writes_successor (col : String) (dataSort : Option String)
    (ps : Params) (fields : List FormField)
    (hHid : fields.any (fun f => f.hidden && f.name == "s_" ++ col) = true) :
    searchParamsGet (sortClickUrl true col dataSort ps).1 ("s_" ++ col)
        = some (nextSort (attrOrEmpty dataSort))
    ∧ (((sortClickForm col dataSort fields).1.find?
          (fun f => f.hidden && f.name == "s_" ++ col)).map FormField.value)
        = some (nextSort (attrOrEmpty dataSort))
    ∧ attrOrEmpty Option.none = ""
    ∧ nextSort "" = "asc" ∧ nextSort "asc" = "desc"
    ∧ (∀ s, s ≠ "" → s ≠ "asc" → nextSort s = "") := by
  refine ⟨?_, ?_, rfl, rfl, rfl, ?_⟩
  · simpa [sortClickUrl] using
      searchParamsGet_set ps ("s_" ++ col) (nextSort (attrOrEmpty dataSort))
  · simpa [sortClickForm] using
      setFirstValue_find? (fun f => f.hidden && f.name == "s_" ++ col)
        (nextSort (attrOrEmpty dataSort)) (fun f hf => hf) fields hHid
  · intro s h1 h2
    simp [nextSort, h1, h2]

theorem sortClick_writes_successor_witness :
    ([({ name := "s_a", value := "asc", hidden := true } : FormField)].any
        (fun f => f.hidden && f.name == "s_" ++ "a") = true)
    ∧ searchParamsGet
        (sortClickUrl true "a" (some "asc") [("s_a", "asc")]).1 ("s_" ++ "a")
        = some (nextSort (attrOrEmpty (some "asc"))) := by
  refine ⟨by rfl, ?_⟩
  exact (sortClick_writes_successor "a" (some "asc") [("s_a", "asc")]
    [{ name := "s_a", value := "asc", hidden := true }] (by rfl)).1

example : nextSort "asc" = "desc" := by rfl
example : nextSort "desc" = "" := by rfl
example : nextSort "weird" = "" := by rfl
example :
    (clearAllUrl [("f_a", "1"), ("x", "2"), ("limit", "50"), ("s_b", "asc")]).1
      = [("x", "2")] := by rfl
example :
    (sortClickUrl true "sym" (some "asc") [("s_sym", "asc"), ("q", "z")]).1
      = [("s_sym", "desc"), ("q", "z")] := by rfl
example :
    (chipClickUrl true true (some "filter") (some "a")
      [("f_a", "1"), ("f_b", "2")]).1 = [("f_b", "2")] := by rfl

/-- C2: every handled interaction ends with a navigation (URL script) or a
form submission (form script); a handler that ends with no effect (an early
return) leaves the state untouched. -/
theorem handlers_always_reload (ps : Params) (fields : List FormField)
    (onSortControl onX inChip : Bool) (col : String)
    (dataSort kind colA kindA : Option String) (pathname : List Nat) :
    (clearAllUrl ps).2 = Effect.navigate
    ∧ (clearSortsUrl ps).2 = Effect.navigate
    ∧ (onSortControl = true →
        (sortClickUrl onSortControl col dataSort ps).2 = Effect.navigate)
    ∧ ((sortClickUrl onSortControl col dataSort ps).2 = Effect.none →
        (sortClickUrl onSortControl col dataSort ps).1 = ps)
    ∧ (onX = true → inChip = true →
        (chipClickUrl onX inChip kind colA ps).2 = Effect.navigate)
    ∧ ((chipClickUrl onX inChip kind colA ps).2 = Effect.none →
        (chipClickUrl onX inChip kind colA ps).1 = ps)
    ∧ (clearBtnForm pathname fields).2 = Effect.navigate
    ∧ (clearSortsForm fields).2 = Effect.submit
    ∧ (sortClickForm col dataSort fields).2 = Effect.submit
    ∧ (jsTruthy colA = true → jsTruthy kindA = true →
        (chipClickForm colA kindA fields).2 = Effect.submit)
    ∧ ((chipClickForm colA kindA fields).2 = Effect.none →
        (chipClickForm colA kindA fields).1 = fields) := by
  refine ⟨rfl, rfl, ?_, ?_, ?_, ?_, rfl, rfl, rfl, ?_, ?_⟩
  · intro h; simp [sortClickUrl, h]
  · intro h
    by_cases hs : onSortControl = true
    · simp [sortClickUrl, hs] at h
    · simp at hs
      simp [sortClickUrl, hs]
  · intro hx hc; simp [chipClickUrl, hx, hc]
  · intro h
    by_cases hx : onX = true
    · by_cases hc : inChip = true
      · simp [chipClickUrl, hx, hc] at h
      · simp at hc
        simp [chipClickUrl, hx, hc]
    · simp at hx
      simp [chipClickUrl, hx]
  · intro hc hk; simp [chipClickForm, hc, hk]
  · intro h
    by_cases hck : jsTruthy colA = true ∧ jsTruthy kindA = true
    · simp [chipClickForm, hck.1, hck.2] at h
    · simp [chipClickForm, hck]

theorem handlers_always_reload_witness :
    (sortClickUrl true "a" Option.none []).2 = Effect.navigate
    ∧ (chipClickUrl true true (some "filter") (some "a") []).2 = Effect.navigate
    ∧ (chipClickForm (some "a") (some "filter") []).2 = Effect.submit
    ∧ (chipClickForm Option.none Option.none []).1 = [] := by
  refine ⟨?_, ?_, ?_, ?_⟩
  · exact (handlers_always_reload [] [] true true true "a"
      Option.none (some "filter") (some "a") (some "filter") []).2.2.1 rfl
  · exact (handlers_always_reload [] [] true true true "a"
      Option.none (some "filter") (some "a") (some "filter")
      []).2.2.2.2.1 rfl rfl
  · exact (handlers_always_reload [] [] true true true "a"
      Option.none (some "filter") (some "a") (some "filter")
      []).2.2.2.2.2.2.2.2.2.1 rfl rfl
  · exact (handlers_always_reload [] [] true true true "a"
      Option.none (some "filter") Option.none Option.none
      []).2.2.2.2.2.2.2.2.2.2 rfl

/-- C7 counterexample: starting from the empty sort state, three sort
clicks pass through the two distinct intermediate states `"asc"` and
`"desc"` — more than one — before restoring the starting state `""`. -/
theorem sort_cycle_three_states :
    nextSort "" = "asc"
    ∧ nextSort (nextSort "") = "desc"
    ∧ nextSort (nextSort (nextSort "")) = ""
    ∧ nextSort "" ≠ ""
    ∧ nextSort (nextSort "") ≠ ""
    ∧ nextSort "" ≠ nextSort (nextSort "") := by
  refine ⟨rfl, rfl, rfl, by decide, by decide, by decide⟩

/-- C7 (amended): the per-column sort state is a three-state cycle
`"" → asc → desc → ""`: whenever a sequence of sort clicks on one column
restores the starting state, the cycle has length three and passes through
exactly two distinct intermediate states. -/
theorem sort_cycle_period (s : String) (n : Nat) (h1 : 0 < n)
    (h2 : nextSort^[n] s = s) :
    nextSort^[3] s = s
    ∧ nextSort s ≠ s
    ∧ nextSort^[2] s ≠ s
    ∧ nextSort s ≠ nextSort^[2] s := by
  have hmem := nextSort_iterate_mem s n h1
  rw [h2] at hmem
  rcases hmem with h | h | h <;> subst h <;>
    exact ⟨by decide, by decide, by decide, by decide⟩

theorem sort_cycle_period_witness :
    0 < 3 ∧ nextSort^[3] "" = "" ∧ nextSort "" ≠ "" := by
  refine ⟨by decide, ?_, ?_⟩
  · exact (sort_cycle_period "" 3 (by decide) (by decide)).1
  · exact (sort_cycle_period "" 3 (by decide) (by decide)).2.1

/-- Reduction of the form chip handler, filter kind. -/
theorem chipClickForm_filter_eq (c : String) (fields : List FormField)
    (hc : c ≠ "") :
    (chipClickForm (some c) (some "filter") fields).1
      = setFirstValue (fun f => f.name == "f_" ++ c) "" fields := by
  simp [chipClickForm, jsTruthy, attrOrEmpty, hc]

/-- Reduction of the form chip handler, sort kind. -/
theorem chipClickForm_sort_eq (c : String) (fields : List FormField)
    (hc : c ≠ "") :
    (chipClickForm (some c) (some "sort") fields).1
      = setFirstValue (fun f => f.hidden && f.name == "s_" ++ c) ""
          fields := by
  simp [chipClickForm, jsTruthy, attrOrEmpty, hc]

/-- C3: the clear-sorts button removes exactly the sort state. URL script:
every `s_`-prefixed parameter is gone, every other parameter survives with
its value, and the result is a sublist of (hence order-preserving within)
the original. Form script: every hidden `s_`-prefixed input is blanked and
every other field is untouched, position by position. -/
theorem clearSorts_frame (ps : Params) (fields : List FormField)
    (k : String) :
    (strStartsWith k "s_" = true →
      ∀ v, (k, v) ∉ (clearSortsUrl ps).1)
    ∧ (∀ kv ∈ ps, strStartsWith kv.1 "s_" = false → kv ∈ (clearSortsUrl ps).1)
    ∧ (∀ kv ∈ (clearSortsUrl ps).1, kv ∈ ps)
    ∧ List.Sublist (clearSortsUrl ps).1 ps
    ∧ (clearSortsForm fields).1.length = fields.length
    ∧ (∀ i (hi : i < fields.length)
        (hi2 : i < (clearSortsForm fields).1.length),
        (clearSortsForm fields).1.get ⟨i, hi2⟩ =
          if isHiddenSort (fields.get ⟨i, hi⟩) = true
          then { fields.get ⟨i, hi⟩ with value := "" }
          else fields.get ⟨i, hi⟩) := by
  refine ⟨?_, ?_, ?_, ?_, ?_, ?_⟩
  · intro hk v hmem
    have := (List.mem_filter.1 hmem).2
    simp [hk] at this
  · intro kv hkv hns
    exact List.mem_filter.2 ⟨hkv, by simp [hns]⟩
  · intro kv hkv
    exact (List.mem_filter.1 hkv).1
  · exact List.filter_sublist ps
  · simp [clearSortsForm]
  · intro i hi hi2
    simp [clearSortsForm, List.get_eq_getElem, List.getElem_map]

theorem clearSorts_frame_witness :
    strStartsWith "s_a" "s_" = true
    ∧ ("s_a", "asc") ∉ (clearSortsUrl [("s_a", "asc"), ("q", "1")]).1 := by
  refine ⟨by rfl, ?_⟩
  exact (clearSorts_frame [("s_a", "asc"), ("q", "1")] [] "s_a").1 rfl "asc"

/-- C4: removing a chip touches exactly the one parameter the chip names.
URL script: for a filter chip `f_<col>` disappears, for a sort chip
`s_<col>` disappears, every other parameter survives, order preserved, and
any other `data-kind` leaves the parameters untouched. Form script: the
first input named `f_<col>` (filter) or the first hidden input named
`s_<col>` (sort) has its value blanked and every other field is identical;
a chip whose kind is neither blanks nothing. -/
theorem chipRemove_frame (c : String) (ps : Params)
    (fields : List FormField) (hc : c ≠ "") :
    (∀ v, ("f_" ++ c, v) ∉
      (chipClickUrl true true (some "filter") (some c) ps).1)
    ∧ (∀ kv ∈ ps, kv.1 ≠ "f_" ++ c →
        kv ∈ (chipClickUrl true true (some "filter") (some c) ps).1)
    ∧ (∀ kv ∈ (chipClickUrl true true (some "filter") (some c) ps).1,
        kv ∈ ps)
    ∧ List.Sublist (chipClickUrl true true (some "filter") (some c) ps).1 ps
    ∧ (∀ v, ("s_" ++ c, v) ∉
        (chipClickUrl true true (some "sort") (some c) ps).1)
    ∧ (∀ kv ∈ ps, kv.1 ≠ "s_" ++ c →
        kv ∈ (chipClickUrl true true (some "sort") (some c) ps).1)
    ∧ (∀ kv ∈ (chipClickUrl true true (some "sort") (some c) ps).1,
        kv ∈ ps)
    ∧ List.Sublist (chipClickUrl true true (some "sort") (some c) ps).1 ps
    ∧ (∀ kind : Option String, kind ≠ some "filter" → kind ≠ some "sort" →
        (chipClickUrl true true kind (some c) ps).1 = ps)
    ∧ (((∀ g ∈ fields, g.name ≠ "f_" ++ c)
          ∧ (chipClickForm (some c) (some "filter") fields).1 = fields)
       ∨ ∃ l f r, fields = l ++ f :: r
           ∧ (∀ g ∈ l, g.name ≠ "f_" ++ c) ∧ f.name = "f_" ++ c
           ∧ (chipClickForm (some c) (some "filter") fields).1
               = l ++ { f with value := "" } :: r)
    ∧ (((∀ g ∈ fields, ¬ (g.hidden = true ∧ g.name = "s_" ++ c))
          ∧ (chipClickForm (some c) (some "sort") fields).1 = fields)
       ∨ ∃ l f r, fields = l ++ f :: r
           ∧ (∀ g ∈ l, ¬ (g.hidden = true ∧ g.name = "s_" ++ c))
           ∧ f.hidden = true ∧ f.name = "s_" ++ c
           ∧ (chipClickForm (some c) (some "sort") fields).1
               = l ++ { f with value := "" } :: r)
    ∧ (∀ kv : String, kv ≠ "" → kv ≠ "filter" → kv ≠ "sort" →
        (chipClickForm (some c) (some kv) fields).1 = fields) := by
  have hfil : (chipClickUrl true true (some "filter") (some c) ps).1
      = ps.filter (fun kv => kv.1 ≠ "f_" ++ c) := by
    simp [chipClickUrl, jsAttrStr, searchParamsDelete]
  have hsrt : (chipClickUrl true true (some "sort") (some c) ps).1
      = ps.filter (fun kv => kv.1 ≠ "s_" ++ c) := by
    simp [chipClickUrl, jsAttrStr, searchParamsDelete]
  refine ⟨?_, ?_, ?_, ?_, ?_, ?_, ?_, ?_, ?_, ?_, ?_, ?_⟩
  · intro v hmem
    rw [hfil] at hmem
    have := (List.mem_filter.1 hmem).2
    simp at this
  · intro kv hkv hne
    rw [hfil]
    exact List.mem_filter.2 ⟨hkv, by simp [hne]⟩
  · intro kv hkv
    rw [hfil] at hkv
    exact (List.mem_filter.1 hkv).1
  · rw [hfil]; exact List.filter_sublist ps
  · intro v hmem
    rw [hsrt] at hmem
    have := (List.mem_filter.1 hmem).2
    simp at this
  · intro kv hkv hne
    rw [hsrt]
    exact List.mem_filter.2 ⟨hkv, by simp [hne]⟩
  · intro kv hkv
    rw [hsrt] at hkv
    exact (List.mem_filter.1 hkv).1
  · rw [hsrt]; exact List.filter_sublist ps
  · intro kind hk1 hk2
    simp [chipClickUrl, hk1, hk2]
  · rcases setFirstValue_cases (fun f => f.name == "f_" ++ c) "" fields with
      ⟨hall, heq⟩ | ⟨l, f, r, hfe, hl, hpf, he⟩
    · refine Or.inl ⟨?_, by rw [chipClickForm_filter_eq c fields hc, heq]⟩
      intro g hg
      simpa using hall g hg
    · refine Or.inr ⟨l, f, r, hfe, ?_, by simpa using hpf,
        by rw [chipClickForm_filter_eq c fields hc, he]⟩
      intro g hg
      simpa using hl g hg
  · rcases setFirstValue_cases (fun f => f.hidden && f.name == "s_" ++ c)
      "" fields with ⟨hall, heq⟩ | ⟨l, f, r, hfe, hl, hpf, he⟩
    · refine Or.inl ⟨?_, by rw [chipClickForm_sort_eq c fields hc, heq]⟩
      intro g hg
      have := hall g hg
      simp at this
      intro hh
      exact absurd (this hh.1) (by simp [hh.2])
    · have hpf2 : f.hidden = true ∧ f.name = "s_" ++ c := by simpa using hpf
      refine Or.inr ⟨l, f, r, hfe, ?_, hpf2.1, hpf2.2,
        by rw [chipClickForm_sort_eq c fields hc, he]⟩
      intro g hg
      have := hl g hg
      simp at this
      intro hh
      exact absurd (this hh.1) (by simp [hh.2])
  · intro kv hk0 hk1 hk2
    simp [chipClickForm, jsTruthy, hc, hk0, hk1, hk2]

theorem chipRemove_frame_witness :
    ("a" : String) ≠ ""
    ∧ ∀ v, ("f_" ++ "a", v) ∉
        (chipClickUrl true true (some "filter") (some "a")
          [("f_a", "1"), ("q", "2")]).1 := by
  refine ⟨by decide, ?_⟩
  exact (chipRemove_frame "a" [("f_a", "1"), ("q", "2")] [] (by decide)).1

/-- C5: whenever the chart is rendered, it is a `"line"` chart with exactly
two datasets labelled `"Root % Used"` and `"Volume % Used"`, whose data
arrays are the two percentage series and whose x-axis labels are the label
array. -/
theorem chart_line_two_datasets {α β : Type} (labelsG : Option (List β))
    (rootG volG : Option (List α)) (canvasPresent : Bool)
    (cfg : ChartConfig α β)
    (h : storageInit labelsG rootG volG canvasPresent = some cfg) :
    cfg.type = "line"
    ∧ cfg.data.datasets.length = 2
    ∧ cfg.data.datasets.map Dataset.label = ["Root % Used", "Volume % Used"]
    ∧ cfg.data.datasets.map Dataset.data = [rootG.getD [], volG.getD []]
    ∧ cfg.data.labels = labelsG.getD [] := by
  unfold storageInit at h
  by_cases hcv : canvasPresent
  · by_cases hl : (labelsG.getD []).length = 0
    · simp [hcv, hl] at h
    · simp [hcv, hl] at h
      rw [← h]
      exact ⟨rfl, rfl, rfl, rfl, rfl⟩
  · simp [hcv] at h

theorem chart_line_two_datasets_witness :
    storageInit (some ["d1"]) (some [41]) (some [7]) true
      = some
        { type := "line"
          data :=
            { labels := ["d1"]
              datasets :=
                [{ label := "Root % Used", data := [41],
                   borderWidth := 2, pointRadius := 3, tension := 1/4 },
                 { label := "Volume % Used", data := [7],
                   borderWidth := 2, pointRadius := 3, tension := 1/4 }] } }
    ∧ (storageInit (some ["d1"]) (some [41]) (some [7]) true).map
        (fun cfg => cfg.type) = some "line" := by
  refine ⟨by rfl, ?_⟩
  have h := chart_line_two_datasets (some ["d1"]) (some [41]) (some [7]) true
    { type := "line"
      data :=
        { labels := ["d1"]
          datasets :=
            [{ label := "Root % Used", data := [41],
               borderWidth := 2, pointRadius := 3, tension := 1/4 },
             { label := "Volume % Used", data := [7],
               borderWidth := 2, pointRadius := 3, tension := 1/4 }] } }
    (by rfl)
  rw [show storageInit (some ["d1"]) (some [41]) (some [7]) true = some
    { type := "line"
      data :=
        { labels := ["d1"]
          datasets :=
            [{ label := "Root % Used", data := [41],
               borderWidth := 2, pointRadius := 3, tension := 1/4 },
             { label := "Volume % Used", data := [7],
               borderWidth := 2, pointRadius := 3, tension := 1/4 }] } }
    from rfl]
  simp [h.1]

/-- C6: the label array and the two percentage arrays reach the chart call
unmodified — the configuration's labels and dataset data are
element-for-element the given global arrays. -/
theorem chart_passthrough {α β : Type} (labels : List β) (root vol : List α)
    (canvasPresent : Bool) (cfg : ChartConfig α β)
    (h : storageInit (some labels) (some root) (some vol) canvasPresent
        = some cfg) :
    cfg.data.labels = labels
    ∧ cfg.data.datasets.map Dataset.data = [root, vol]
    ∧ (∀ i (hi : i < labels.length) (hi2 : i < cfg.data.labels.length),
        cfg.data.labels.get ⟨i, hi2⟩ = labels.get ⟨i, hi⟩) := by
  unfold storageInit at h
  by_cases hcv : canvasPresent
  · by_cases hl : labels.length = 0
    · simp [hcv, hl] at h
    · simp [hcv, hl] at h
      rw [← h]
      exact ⟨rfl, rfl, fun i hi hi2 => rfl⟩
  · simp [hcv] at h

theorem chart_passthrough_witness :
    ∃ cfg : ChartConfig Nat String,
      storageInit (some ["d1", "d2"]) (some [41, 42]) (some [7, 8]) true
          = some cfg
      ∧ cfg.data.labels = ["d1", "d2"]
      ∧ cfg.data.datasets.map Dataset.data = [[41, 42], [7, 8]] := by
  refine ⟨{ type := "line"
            data :=
              { labels := ["d1", "d2"]
                datasets :=
                  [{ label := "Root % Used", data := [41, 42],
                     borderWidth := 2, pointRadius := 3, tension := 1/4 },
                   { label := "Volume % Used", data := [7, 8],
                     borderWidth := 2, pointRadius := 3, tension := 1/4 }] } },
    by rfl, ?_, ?_⟩
  · exact (chart_passthrough ["d1", "d2"] [41, 42] [7, 8] true _ (by rfl)).1
  · exact (chart_passthrough ["d1", "d2"] [41, 42] [7, 8] true _ (by rfl)).2.1

/-- C9: nothing is rendered when the canvas is absent or the label data is
empty, and an undefined global is harmless: `STORAGE_LABELS` undefined
behaves as the empty label list (so nothing is rendered), and an undefined
percentage global behaves exactly as an empty array. -/
theorem chart_guards {α β : Type} (labelsG : Option (List β))
    (rootG volG : Option (List α)) (canvasPresent : Bool) :
    storageInit labelsG rootG volG false
        = (Option.none : Option (ChartConfig α β))
    ∧ ((labelsG.getD []).length = 0 →
        storageInit labelsG rootG volG canvasPresent = Option.none)
    ∧ storageInit (Option.none : Option (List β)) rootG volG canvasPresent
        = Option.none
    ∧ storageInit labelsG (Option.none : Option (List α)) volG canvasPresent
        = storageInit labelsG (some []) volG canvasPresent
    ∧ storageInit labelsG rootG (Option.none : Option (List α)) canvasPresent
        = storageInit labelsG rootG (some []) canvasPresent := by
  refine ⟨by simp [storageInit], ?_, ?_, rfl, rfl⟩
  · intro hl
    by_cases hcv : canvasPresent <;> simp [storageInit, hcv, hl]
  · by_cases hcv : canvasPresent <;> simp [storageInit, hcv]

theorem chart_guards_witness :
    storageInit (some ["d1"]) (some [41]) (some [7]) false
        = (Option.none : Option (ChartConfig Nat String))
    ∧ ((some ([] : List String)).getD []).length = 0
    ∧ storageInit (some ([] : List String)) (some [41]) (some [7]) true
        = (Option.none : Option (ChartConfig Nat String)) := by
  refine ⟨?_, by rfl, ?_⟩
  · exact (chart_guards (some ["d1"]) (some [41]) (some [7]) false).1
  · exact (chart_guards (some ([] : List String)) (some [41]) (some [7])
      true).2.1 (by rfl)

/-- Hex digits are never `&` (38), `=` (61) or `?` (63). -/
theorem hexDigitCode_ne_sep (n : Nat) :
    hexDigitCode n ≠ 38 ∧ hexDigitCode n ≠ 61 ∧ hexDigitCode n ≠ 63 := by
  by_cases h : n < 10 <;> simp [hexDigitCode, h] <;> omega

/-- Unreserved characters are never `&`, `=` or `?`. -/
theorem isUnreservedByte_ne_sep (b : Nat) (h : isUnreservedByte b = true) :
    b ≠ 38 ∧ b ≠ 61 ∧ b ≠ 63 := by
  simp [isUnreservedByte] at h
  omega

/-- `encodeURIComponent` output never contains `&`, `=` or `?`. -/
theorem encodeURIComponentC_ne_sep (s : List Nat) (b : Nat)
    (hb : b ∈ encodeURIComponentC s) : b ≠ 38 ∧ b ≠ 61 ∧ b ≠ 63 := by
  rw [encodeURIComponentC, List.mem_flatten] at hb
  obtain ⟨l, hl, hbl⟩ := hb
  rw [List.mem_map] at hl
  obtain ⟨c, _, rfl⟩ := hl
  rw [encodeCodePoint] at hbl
  by_cases hu : isUnreservedByte c = true
  · rw [if_pos hu] at hbl
    simp at hbl
    exact hbl ▸ isUnreservedByte_ne_sep c hu
  · rw [if_neg hu] at hbl
    rw [List.mem_flatten] at hbl
    obtain ⟨l2, hl2, hbl2⟩ := hbl
    rw [List.mem_map] at hl2
    obtain ⟨b', _, rfl⟩ := hl2
    rw [percentEncodeByte] at hbl2
    simp at hbl2
    rcases hbl2 with rfl | rfl | rfl
    · omega
    · exact hexDigitCode_ne_sep _
    · exact hexDigitCode_ne_sep _

/-- Dropping through the first occurrence of `c`. -/
theorem dropThroughByte_append (c : Nat) (l r : List Nat) (h : c ∉ l) :
    dropThroughByte c (l ++ c :: r) = r := by
  induction l with
  | nil => simp [dropThroughByte]
  | cons a as ih =>
    have ha : a ≠ c := fun hac => h (hac ▸ List.mem_cons_self a as)
    have has : c ∉ as := fun hc => h (List.mem_cons_of_mem a hc)
    simp [dropThroughByte, ha, ih has]

/-- Taking up to the first occurrence of `c`. -/
theorem takeUntilByte_append (c : Nat) (l r : List Nat) (h : c ∉ l) :
    takeUntilByte c (l ++ c :: r) = l := by
  induction l with
  | nil => simp [takeUntilByte]
  | cons a as ih =>
    have ha : a ≠ c := fun hac => h (hac ▸ List.mem_cons_self a as)
    have has : c ∉ as := fun hc => h (List.mem_cons_of_mem a hc)
    simp [takeUntilByte, ha, ih has]

/-- A list without `c` splits into itself. -/
theorem splitOnByte_not_mem (c : Nat) (l : List Nat) (h : c ∉ l) :
    splitOnByte c l = [l] := by
  induction l with
  | nil => rfl
  | cons a as ih =>
    have ha : a ≠ c := fun hac => h (hac ▸ List.mem_cons_self a as)
    have has : c ∉ as := fun hc => h (List.mem_cons_of_mem a hc)
    simp [splitOnByte, ha, ih has]

/-- Splitting at the first occurrence of `c`. -/
theorem splitOnByte_append (c : Nat) (l r : List Nat) (h : c ∉ l) :
    splitOnByte c (l ++ c :: r) = l :: splitOnByte c r := by
  induction l with
  | nil => simp [splitOnByte]
  | cons a as ih =>
    have ha : a ≠ c := fun hac => h (hac ▸ List.mem_cons_self a as)
    have has : c ∉ as := fun hc => h (List.mem_cons_of_mem a hc)
    rw [List.cons_append, splitOnByte]
    rw [if_neg ha, ih has]

/-- Parsing the `clearBtn` navigation target: the server receives exactly
`limit=<encoded limit>` and `format=html`. -/
theorem clearBtn_queryPairs (pathname : List Nat) (fields : List FormField)
    (h : 63 ∉ pathname) :
    queryPairsC (clearBtnForm pathname fields).1
      = [(strToCodes "limit",
          encodeURIComponentC (strToCodes (clearBtnLimit fields))),
         (strToCodes "format", strToCodes "html")] := by
  have h38 : (38 : Nat) ∉
      encodeURIComponentC (strToCodes (clearBtnLimit fields)) := by
    intro hm
    exact (encodeURIComponentC_ne_sep _ 38 hm).1 rfl
  have h61 : (61 : Nat) ∉
      encodeURIComponentC (strToCodes (clearBtnLimit fields)) := by
    intro hm
    exact (encodeURIComponentC_ne_sep _ 61 hm).2.1 rfl
  have hq : strToCodes "?limit=" = 63 :: strToCodes "limit=" := by rfl
  have hshape1 : (clearBtnForm pathname fields).1
      = pathname ++ 63 :: (strToCodes "limit="
          ++ (encodeURIComponentC (strToCodes (clearBtnLimit fields))
              ++ strToCodes "&format=html")) := by
    simp [clearBtnForm, hq, List.append_assoc]
  rw [queryPairsC, hshape1, dropThroughByte_append 63 pathname _ h]
  have hamp : strToCodes "&format=html" = 38 :: strToCodes "format=html" := by
    rfl
  have hsplitarg : strToCodes "limit="
      ++ (encodeURIComponentC (strToCodes (clearBtnLimit fields))
          ++ strToCodes "&format=html")
      = (strToCodes "limit="
          ++ encodeURIComponentC (strToCodes (clearBtnLimit fields)))
        ++ 38 :: strToCodes "format=html" := by
    simp [hamp, List.append_assoc]
  have h38A : (38 : Nat) ∉ strToCodes "limit="
      ++ encodeURIComponentC (strToCodes (clearBtnLimit fields)) := by
    intro hm
    rcases List.mem_append.1 hm with hm | hm
    · revert hm; decide
    · exact h38 hm
  rw [hsplitarg, splitOnByte_append 38 _ _ h38A,
    splitOnByte_not_mem 38 _ (by decide)]
  have hne1 : ((strToCodes "limit="
      ++ encodeURIComponentC (strToCodes (clearBtnLimit fields))).isEmpty)
      = false := by
    rw [show strToCodes "limit="
        ++ encodeURIComponentC (strToCodes (clearBtnLimit fields))
        = 108 :: (strToCodes "imit="
            ++ encodeURIComponentC (strToCodes (clearBtnLimit fields)))
      from rfl]
    rfl
  simp only [List.filter, hne1, Bool.not_false,
    show (strToCodes "format=html").isEmpty = false from rfl, List.map]
  have heq1 : strToCodes "limit="
      ++ encodeURIComponentC (strToCodes (clearBtnLimit fields))
      = strToCodes "limit"
        ++ 61 :: encodeURIComponentC (strToCodes (clearBtnLimit fields)) := by
    rfl
  have hp1 : pairOfComponent (strToCodes "limit="
      ++ encodeURIComponentC (strToCodes (clearBtnLimit fields)))
      = (strToCodes "limit",
         encodeURIComponentC (strToCodes (clearBtnLimit fields))) := by
    rw [pairOfComponent, heq1,
      takeUntilByte_append 61 _ _ (by decide),
      dropThroughByte_append 61 _ _ (by decide)]
  have hp2 : pairOfComponent (strToCodes "format=html")
      = (strToCodes "format", strToCodes "html") := by rfl
  rw [hp1, hp2]

/-- C10: the form-based clear-all always navigates to
`pathname + "?limit=" + encodeURIComponent(limit) + "&format=html"`, with
the limit taken from the form's `input[name="limit"]` (default `"100"`
when absent); the query the server receives consists of exactly those two
parameters, so every other prior parameter is dropped. -/
theorem clearBtn_navigation_target (pathname : List Nat)
    (fields : List FormField) (h : 63 ∉ pathname) :
    (clearBtnForm pathname fields).1
      = pathname ++ strToCodes "?limit="
        ++ encodeURIComponentC (strToCodes (clearBtnLimit fields))
        ++ strToCodes "&format=html"
    ∧ queryPairsC (clearBtnForm pathname fields).1
      = [(strToCodes "limit",
          encodeURIComponentC (strToCodes (clearBtnLimit fields))),
         (strToCodes "format", strToCodes "html")]
    ∧ (∀ f, fields.find? (fun g => g.name == "limit") = some f →
        clearBtnLimit fields = f.value)
    ∧ ((∀ f ∈ fields, f.name ≠ "limit") → clearBtnLimit fields = "100") := by
  refine ⟨rfl, clearBtn_queryPairs pathname fields h, ?_, ?_⟩
  · intro f hf
    rw [clearBtnLimit, hf]
  · intro hall
    rw [clearBtnLimit, List.find?_eq_none.2 (fun f hf => by simp [hall f hf])]

theorem clearBtn_navigation_target_witness :
    (63 : Nat) ∉ strToCodes "/report"
    ∧ queryPairsC (clearBtnForm (strToCodes "/report")
        [{ name := "limit", value := "50", hidden := false }]).1
      = [(strToCodes "limit",
          encodeURIComponentC (strToCodes (clearBtnLimit
            [{ name := "limit", value := "50", hidden := false }]))),
         (strToCodes "format", strToCodes "html")] := by
  refine ⟨by decide, ?_⟩
  exact (clearBtn_navigation_target (strToCodes "/report")
    [{ name := "limit", value := "50", hidden := false }] (by decide)).2.1

/-- C8 counterexample: on the starting state `?limit=50` the URL-based
clear-all leaves the server no parameters at all (it deletes `limit`),
while the form-based clear-all sends `limit=50&format=html` — the two
implementations do not produce the same query-string state. -/
theorem clearAll_not_equivalent :
    paramsToCodes (clearAllUrl [("limit", "50")]).1
      ≠ queryPairsC (clearBtnForm (strToCodes "/report")
          [{ name := "limit", value := "50", hidden := false }]).1 := by
  decide

/-- C8 (amended): the two clear-all implementations agree only in removing
every `f_` and `s_` parameter; they are not equivalent: the URL-based
handler also deletes `limit` and keeps every other parameter, while the
form-based handler always sends exactly `limit=<encoded limit>` (preserving
the form's limit, `"100"` by default) together with `format=html`, dropping
everything else. -/
theorem clearAll_vs_clearBtn (ps : Params) (pathname : List Nat)
    (fields : List FormField) (h63 : 63 ∉ pathname) :
    (∀ kv ∈ (clearAllUrl ps).1, strStartsWith kv.1 "f_" = false
        ∧ strStartsWith kv.1 "s_" = false ∧ kv.1 ≠ "limit")
    ∧ (∀ kv ∈ (clearAllUrl ps).1, kv ∈ ps)
    ∧ (∀ kv ∈ ps, strStartsWith kv.1 "f_" = false →
        strStartsWith kv.1 "s_" = false → kv.1 ≠ "limit" →
        kv ∈ (clearAllUrl ps).1)
    ∧ queryPairsC (clearBtnForm pathname fields).1
      = [(strToCodes "limit",
          encodeURIComponentC (strToCodes (clearBtnLimit fields))),
         (strToCodes "format", strToCodes "html")] := by
  refine ⟨?_, ?_, ?_, clearBtn_queryPairs pathname fields h63⟩
  · intro kv hkv
    have h2 := (List.mem_filter.1 hkv).2
    simp at h2
    exact ⟨h2.1.1, h2.1.2, h2.2⟩
  · intro kv hkv
    exact (List.mem_filter.1 hkv).1
  · intro kv hkv hf hs hl
    exact List.mem_filter.2 ⟨hkv, by simp [hf, hs, hl]⟩

theorem clearAll_vs_clearBtn_witness :
    (63 : Nat) ∉ strToCodes "/report"
    ∧ ("q", "1") ∈ (clearAllUrl [("limit", "50"), ("q", "1")]).1 := by
  refine ⟨by decide, ?_⟩
  exact (clearAll_vs_clearBtn [("limit", "50"), ("q", "1")]
    (strToCodes "/report") [] (by decide)).2.2.1 ("q", "1")
    (by decide) (by decide) (by decide) (by decide)
